import Mathlib

/-!
Verification of libmatoya's `src/json.c` (the in-memory JSON document model)
against its natural-language specification.

The C code is shallowly embedded: the tagged union `struct MTY_JSON` becomes
the inductive `JValue`; nullable `MTY_JSON *` arguments and results become
`Option JValue`; in-place mutation of a tree becomes a function returning the
updated tree, and the values handed to `json_delete` by an operation are
returned alongside it as an explicit list, so that "the previous value is
destroyed" is observable.  C `double` payloads are modelled as `Rat`
(no claim below depends on binary floating-point rounding).  Input byte
sequences are `List Char`; the model treats inputs as NUL-free, matching the
`strlen`-delimited scan of the C code.

The external backing map `MTY_Hash` is not part of the repository's sources;
it is modelled from the spec's collaborator contract (see `hashGet`,
`hashSet`, `hashPop`).
-/

/-- The tagged value of `struct MTY_JSON` (`enum json_type` plus the union
payload).  An Object holds its backing map's entries in the map's iteration
order; an Array holds `value.array.elements[0..length-1]` in order. -/
inductive JValue where
  | boolean : Bool → JValue
  | number : Rat → JValue
  | str : String → JValue
  | obj : List (String × JValue) → JValue
  | arr : List JValue → JValue
  | null : JValue

/-- Modelled from the spec: the backing associative map's
`get(key) → borrowed value or none` (`MTY_HashGet`).  `MTY_Hash` is an
external collaborator whose code is not under `src/`; the spec gives its
contract in §6.  The map is an association list without duplicate keys. -/
def hashGet (m : List (String × JValue)) (key : String) : Option JValue :=
  match m with
  | [] => none
  | (k, w) :: rest => if k = key then some w else hashGet rest key

/-- Modelled from the spec: the backing map's
`set(key, value) → previous value or none` (`MTY_HashSet`); the caller must
destroy the returned previous value.  An existing key's entry is replaced in
place; a new key is appended in iteration order. -/
def hashSet (m : List (String × JValue)) (key : String) (v : JValue) :
    Option JValue × List (String × JValue) :=
  match m with
  | [] => (none, [(key, v)])
  | (k, w) :: rest =>
    if k = key then (some w, (key, v) :: rest)
    else
      let r := hashSet rest key v
      (r.1, (k, w) :: r.2)

/-- Modelled from the spec: the backing map's
`pop(key) → removed value or none` (`MTY_HashPop`); ownership of the removed
value transfers to the caller. -/
def hashPop (m : List (String × JValue)) (key : String) :
    Option JValue × List (String × JValue) :=
  match m with
  | [] => (none, [])
  | (k, w) :: rest =>
    if k = key then (some w, rest)
    else
      let r := hashPop rest key
      (r.1, (k, w) :: r.2)

/-- `MTY_JSONObjGetItem`: NULL or non-Object trees yield NULL, otherwise the
backing map's lookup. -/
def MTY_JSONObjGetItem (json : Option JValue) (key : String) : Option JValue :=
  match json with
  | some (.obj m) => hashGet m key
  | _ => none

/-- `MTY_JSONObjSetItem`: a NULL tree, NULL value, or non-Object tree is a
no-op; otherwise `json_delete(MTY_HashSet(object, key, value))`.  The second
component lists the values the call destroyed. -/
def MTY_JSONObjSetItem (json : Option JValue) (key : String) (value : Option JValue) :
    Option JValue × List JValue :=
  match json, value with
  | some (.obj m), some v =>
    let r := hashSet m key v
    (some (.obj r.2), r.1.toList)
  | _, _ => (json, [])

/-- `MTY_JSONObjDeleteItem`: a NULL or non-Object tree is a no-op; otherwise
`json_delete(MTY_HashPop(object, key))`.  The second component lists the
values the call destroyed. -/
def MTY_JSONObjDeleteItem (json : Option JValue) (key : String) :
    Option JValue × List JValue :=
  match json with
  | some (.obj m) =>
    let r := hashPop m key
    (some (.obj r.2), r.1.toList)
  | _ => (json, [])

/-- `MTY_JSONArrayGetLength`: 0 for NULL or non-Array trees. -/
def MTY_JSONArrayGetLength (json : Option JValue) : Nat :=
  match json with
  | some (.arr es) => es.length
  | _ => 0

/-- `MTY_JSONArrayGetItem`: bounds-checked element access, NULL outside. -/
def MTY_JSONArrayGetItem (json : Option JValue) (index : Nat) : Option JValue :=
  match json with
  | some (.arr es) => if index < es.length then es[index]? else none
  | _ => none

/-- `MTY_JSONArrayAppendItem`: a NULL tree, NULL value, or non-Array tree is a
no-op; otherwise the element array grows by one and the value lands at the
end. -/
def MTY_JSONArrayAppendItem (json : Option JValue) (value : Option JValue) :
    Option JValue :=
  match json, value with
  | some (.arr es), some v => some (.arr (es ++ [v]))
  | _, _ => json

/-- Folding `MTY_JSONArrayAppendItem` over a list of (non-NULL) values, as a
caller appending one value at a time does. -/
def appendAll (json : Option JValue) (vs : List JValue) : Option JValue :=
  vs.foldl (fun acc v => MTY_JSONArrayAppendItem acc (some v)) json

-- Typed getters.  Each C getter writes through an output pointer; the model
-- takes the output cell's prior contents and returns (result, cell afterwards).

/-- C `lrint` on the `double` payload: round to nearest.  (The tie-breaking
mode of the binary double is a floating-point detail no claim depends on.) -/
def jlrint (q : Rat) : Int := round q

/-- The C cast `(int16_t) v` of an `int32_t`: wrap into [-2^15, 2^15). -/
def toInt16 (n : Int) : Int := (n + 2 ^ 15) % 2 ^ 16 - 2 ^ 15

/-- The C cast `(int8_t) v` of an `int32_t`: wrap into [-2^7, 2^7). -/
def toInt8 (n : Int) : Int := (n + 2 ^ 7) % 2 ^ 8 - 2 ^ 7

/-- `snprintf(value, size, "%s", s)`: writes at most `size - 1` characters
plus the terminator; with `size = 0` the buffer is untouched. -/
def snprintfCopy (old : String) (size : Nat) (s : String) : String :=
  if size = 0 then old else s.take (size - 1)

/-- `json_to_string`: false (buffer untouched) unless the value is a String. -/
def json_to_string (json : Option JValue) (value : String) (size : Nat) :
    Bool × String :=
  match json with
  | some (.str s) => (true, snprintfCopy value size s)
  | _ => (false, value)

/-- `json_to_int`: false (cell untouched) unless the value is a Number. -/
def json_to_int (json : Option JValue) (value : Int) : Bool × Int :=
  match json with
  | some (.number q) => (true, jlrint q)
  | _ => (false, value)

/-- `json_to_int16`: runs `json_to_int` into a zero-initialized local `v` and
then stores `(int16_t) v` through the output pointer unconditionally — also
when `json_to_int` failed, in which case the cell receives 0. -/
def json_to_int16 (json : Option JValue) (value : Int) : Bool × Int :=
  let r := json_to_int json 0
  (r.1, toInt16 r.2)

/-- `json_to_int8`: same shape as `json_to_int16`, truncating to 8 bits. -/
def json_to_int8 (json : Option JValue) (value : Int) : Bool × Int :=
  let r := json_to_int json 0
  (r.1, toInt8 r.2)

/-- `json_to_float`: false (cell untouched) unless the value is a Number.  The
C `(float)` narrowing of the double payload is a floating-point detail no
claim depends on; the payload is passed through. -/
def json_to_float (json : Option JValue) (value : Rat) : Bool × Rat :=
  match json with
  | some (.number q) => (true, q)
  | _ => (false, value)

/-- `json_to_bool`: false (cell untouched) unless the value is a Boolean. -/
def json_to_bool (json : Option JValue) (value : Bool) : Bool × Bool :=
  match json with
  | some (.boolean b) => (true, b)
  | _ => (false, value)

/-- `json_is_null`: false for NULL, else whether the variant is Null. -/
def json_is_null (json : Option JValue) : Bool :=
  match json with
  | some .null => true
  | _ => false

def MTY_JSONObjGetString (json : Option JValue) (key : String) (val : String)
    (size : Nat) : Bool × String :=
  json_to_string (MTY_JSONObjGetItem json key) val size

def MTY_JSONObjGetInt (json : Option JValue) (key : String) (val : Int) :
    Bool × Int :=
  json_to_int (MTY_JSONObjGetItem json key) val

/-- `MTY_JSONObjGetUInt` reinterprets the caller's `uint32_t` cell as
`int32_t` (a pointer cast); the cell is modelled as the same integer cell. -/
def MTY_JSONObjGetUInt (json : Option JValue) (key : String) (val : Int) :
    Bool × Int :=
  json_to_int (MTY_JSONObjGetItem json key) val

def MTY_JSONObjGetInt8 (json : Option JValue) (key : String) (val : Int) :
    Bool × Int :=
  json_to_int8 (MTY_JSONObjGetItem json key) val

def MTY_JSONObjGetUInt8 (json : Option JValue) (key : String) (val : Int) :
    Bool × Int :=
  json_to_int8 (MTY_JSONObjGetItem json key) val

def MTY_JSONObjGetInt16 (json : Option JValue) (key : String) (val : Int) :
    Bool × Int :=
  json_to_int16 (MTY_JSONObjGetItem json key) val

def MTY_JSONObjGetUInt16 (json : Option JValue) (key : String) (val : Int) :
    Bool × Int :=
  json_to_int16 (MTY_JSONObjGetItem json key) val

def MTY_JSONObjGetFloat (json : Option JValue) (key : String) (val : Rat) :
    Bool × Rat :=
  json_to_float (MTY_JSONObjGetItem json key) val

def MTY_JSONObjGetBool (json : Option JValue) (key : String) (val : Bool) :
    Bool × Bool :=
  json_to_bool (MTY_JSONObjGetItem json key) val

def MTY_JSONObjIsValNull (json : Option JValue) (key : String) : Bool :=
  json_is_null (MTY_JSONObjGetItem json key)

def MTY_JSONArrayGetString (json : Option JValue) (index : Nat) (val : String)
    (size : Nat) : Bool × String :=
  json_to_string (MTY_JSONArrayGetItem json index) val size

def MTY_JSONArrayGetInt (json : Option JValue) (index : Nat) (val : Int) :
    Bool × Int :=
  json_to_int (MTY_JSONArrayGetItem json index) val

def MTY_JSONArrayGetUInt (json : Option JValue) (index : Nat) (val : Int) :
    Bool × Int :=
  json_to_int (MTY_JSONArrayGetItem json index) val

def MTY_JSONArrayGetFloat (json : Option JValue) (index : Nat) (val : Rat) :
    Bool × Rat :=
  json_to_float (MTY_JSONArrayGetItem json index) val

def MTY_JSONArrayGetBool (json : Option JValue) (index : Nat) (val : Bool) :
    Bool × Bool :=
  json_to_bool (MTY_JSONArrayGetItem json index) val

def MTY_JSONArrayIsValNull (json : Option JValue) (index : Nat) : Bool :=
  json_is_null (MTY_JSONArrayGetItem json index)

-- Serializer (`json_output` and friends).  The C appends to a growing
-- buffer; the model returns the produced text.

/-- `json_output_number`: `snprintf(str, 64, "%f", number)` — sign, integer
part, a dot, six fractional digits.  The exact rounding of the binary double
is a floating-point detail no claim depends on; the rational payload is
rounded to the nearest multiple of 10⁻⁶. -/
def formatNumber (q : Rat) : String :=
  let a : Rat := if q < 0 then -q else q
  let scaled : Nat := (round (a * 1000000)).toNat
  let frs := Nat.repr (scaled % 1000000)
  (if q < 0 then "-" else "") ++ Nat.repr (scaled / 1000000) ++ "." ++
    String.mk (List.replicate (6 - frs.length) '0') ++ frs

mutual

/-- `json_output` at `pretty = false` (the flag produces no difference in the
reference).  String contents are emitted raw — the `XXX TODO Must be escaped`
gap of the reference. -/
def json_output : JValue → String
  | .boolean b => if b then "true" else "false"
  | .number q => formatNumber q
  | .str s => "\"" ++ s ++ "\""
  | .null => "null"
  | .obj m => "\x7b" ++ jsonOutputEntries m true ++ "\x7d"
  | .arr es => "[" ++ jsonOutputElems es true ++ "]"

/-- The object loop of `json_output`: iterate the backing map's keys in
iteration order, a comma before every entry but the first.  (The C re-fetches
each value with `MTY_JSONObjGetItem`; the backing map's keys are unique, so
that is the entry's own value.) -/
def jsonOutputEntries : List (String × JValue) → Bool → String
  | [], _ => ""
  | (k, v) :: rest, first =>
    (if first then "" else ",") ++ "\"" ++ k ++ "\"" ++ ":" ++ json_output v ++
      jsonOutputEntries rest false

/-- The array loop of `json_output`: elements in index order, a comma before
every element but the first. -/
def jsonOutputElems : List JValue → Bool → String
  | [], _ => ""
  | v :: rest, first =>
    (if first then "" else ",") ++ json_output v ++ jsonOutputElems rest false

end

/-- `json_print` (the `pretty` flag changes nothing in the reference). -/
def json_print (item : JValue) (pretty : Bool) : String := json_output item

/-- `MTY_JSONSerialize`: a NULL tree serializes to the literal text `null`. -/
def MTY_JSONSerialize (json : Option JValue) : String :=
  match json with
  | none => "null"
  | some v => json_print v false

-- Deep copy (`MTY_JSONDuplicate`).

mutual

/-- `MTY_JSONDuplicate`.  The C's `JSON_BOOLEAN`, `JSON_NUMBER` and
`JSON_NULL` cases all execute `return json_create(JSON_BOOLEAN, &json->value)`
— `json_create` reads `*(const bool *) val`, i.e. the first byte of the union,
as the new Boolean's payload.  That byte reinterpretation is memory-layout
defined, so it is a parameter of the model: `numBits q` is the bool read from
a union last written with the double `q`, and `nullBits` the bool read from a
Null's union.  For a Boolean source the byte read back is the stored payload
itself. -/
def MTY_JSONDuplicate (numBits : Rat → Bool) (nullBits : Bool) : JValue → JValue
  | .boolean b => .boolean b
  | .number q => .boolean (numBits q)
  | .null => .boolean nullBits
  | .str s => .str s
  | .obj m => .obj (dupEntries numBits nullBits m)
  | .arr es => .arr (dupElems numBits nullBits es)

/-- The object case of `MTY_JSONDuplicate`: every key/value pair duplicated
and reinserted (`MTY_JSONObjSetItem` into a fresh object), in the backing
map's iteration order. -/
def dupEntries (numBits : Rat → Bool) (nullBits : Bool) :
    List (String × JValue) → List (String × JValue)
  | [] => []
  | (k, v) :: rest => (k, MTY_JSONDuplicate numBits nullBits v) ::
      dupEntries numBits nullBits rest

/-- The array case of `MTY_JSONDuplicate`: each element duplicated and
appended in order. -/
def dupElems (numBits : Rat → Bool) (nullBits : Bool) : List JValue → List JValue
  | [] => []
  | v :: rest => MTY_JSONDuplicate numBits nullBits v ::
      dupElems numBits nullBits rest

end

-- Parser (`MTY_JSONParse`).  The C is a single loop `for (x = 0; x < len;)`
-- over a NUL-terminated byte string, dispatching on `input[x]`, with a
-- 128-entry pointer stack `stack`, a 128-entry flag array `kv`, a stack
-- pointer `spos` starting at 1, and a pending-key register `key`.  The two
-- arrays are modelled as total maps from `Int` so that the model stays
-- defined when `spos` leaves [0, 127]; `spos` is an `Int` standing for the C
-- `size_t` (a C underflow of `spos - 1` to 2^64 - 1 is the model's -1 —
-- either way an index outside the arrays' bounds 0..127).  `openCnt` is
-- instrumentation, not program state: it counts the container values pushed
-- and not yet popped, for stating the nesting-depth claims.

/-- One parse state of `MTY_JSONParse`'s loop. -/
structure ParseCfg where
  input : List Char
  x : Nat
  spos : Int
  stack : Int → Option JValue
  kv : Int → Bool
  key : Option String
  openCnt : Nat

/-- Point update of a modelled C array. -/
def updf (f : Int → Option JValue) (i : Int) (a : Option JValue) : Int → Option JValue :=
  fun j => if j = i then a else f j

/-- Point update of the modelled `kv` array. -/
def updb (f : Int → Bool) (i : Int) (a : Bool) : Int → Bool :=
  fun j => if j = i then a else f j

/-- `strstr(input, lit) == input`: the literal occurs at the very start. -/
def startsWithLit : List Char → List Char → Bool
  | [], _ => true
  | _ :: _, [] => false
  | a :: as, b :: bs => a = b && startsWithLit as bs

/-- `strchr(s, c)` as the index of the first occurrence, if any (the model's
inputs are NUL-free, so the search is over the whole remaining input). -/
def charIndex (c : Char) : List Char → Option Nat
  | [] => none
  | a :: as => if a = c then some 0 else (charIndex c as).map (· + 1)

/-- `json_parse_boolean` on the remaining input: characters consumed and the
value created (the C calls `json_parse_set_item` exactly when consumed > 0). -/
def json_parse_boolean (s : List Char) : Nat × Option JValue :=
  if startsWithLit ['t', 'r', 'u', 'e'] s then (4, some (.boolean true))
  else if startsWithLit ['f', 'a', 'l', 's', 'e'] s then (5, some (.boolean false))
  else (0, none)

/-- `json_parse_number`: stubbed in the reference — consumes nothing and
creates nothing. -/
def json_parse_number (s : List Char) : Nat × Option JValue := (0, none)

/-- `json_parse_null`: stubbed in the reference — consumes nothing and
creates nothing. -/
def json_parse_null (s : List Char) : Nat × Option JValue := (0, none)

/-- `json_parse_string_raw`: skip one leading quote, then copy up to the next
quote (no unescaping — the reference's `XXX TODO`).  Returns characters
consumed and the parsed bytes (`none` models the C leaving `*parsed` NULL
when no closing quote exists). -/
def json_parse_string_raw (s : List Char) : Nat × Option String :=
  let c1 : Nat := if s.head? = some '"' then 1 else 0
  let s1 := s.drop c1
  match charIndex '"' s1 with
  | some i => (c1 + i + 1, some (String.mk (s1.take i)))
  | none => (c1, none)

/-- `json_parse_string`: a String value is created whenever anything was
consumed; a NULL `parsed` (unterminated string) yields an empty string, as
`json_create(JSON_STRING, NULL)` does. -/
def json_parse_string (s : List Char) : Nat × Option JValue :=
  let r := json_parse_string_raw s
  if r.1 > 0 then (r.1, some (.str (r.2.getD ""))) else (r.1, none)

/-- `json_parse_set_item`: a NULL `*parent` (the stack slot) receives the item
itself; an Object or Array parent attaches it (under the pending key for an
Object — the C passes the `key` pointer through to the backing map; a NULL
key is modelled as the empty-string key, which no claim exercises); any other
parent ignores the item. -/
def json_parse_set_item (parent : Option JValue) (key : Option String)
    (item : JValue) : Option JValue :=
  match parent with
  | none => some item
  | some (.obj m) => (MTY_JSONObjSetItem (some (.obj m)) (key.getD "") (some item)).1
  | some (.arr es) => MTY_JSONArrayAppendItem (some (.arr es)) (some item)
  | some other => some other

/-- The case labels of the parser's `switch (input[x])`, one constructor per
case body. -/
inductive Tok where
  | bool | num | strq | nul | objOpen | objClose | colon | comma
  | arrOpen | arrClose | skip

/-- The `switch` dispatch: `t`/`f` → boolean, sign or digit → number,
`"` → string, `n` → null, the six structural characters, and the skipping
default. -/
def tokOf (ch : Char) : Tok :=
  if ch == 't' || ch == 'f' then .bool
  else if ch == '+' || ch == '-' || ch == '0' || ch == '1' || ch == '2' ||
      ch == '3' || ch == '4' || ch == '5' || ch == '6' || ch == '7' ||
      ch == '8' || ch == '9' then .num
  else if ch == '"' then .strq
  else if ch == 'n' then .nul
  else if ch == '{' then .objOpen
  else if ch == '}' then .objClose
  else if ch == ':' then .colon
  else if ch == ',' then .comma
  else if ch == '[' then .arrOpen
  else if ch == ']' then .arrClose
  else .skip

/-- A value-token case body: `x += handler(input + x, key, &stack[spos - 1])`.
The handler writes the created value (if any) through `json_parse_set_item`
into the slot `stack[spos - 1]`. -/
def stepScalar (c : ParseCfg) (handler : List Char → Nat × Option JValue) : ParseCfg :=
  let r := handler (c.input.drop c.x)
  let slot := c.stack (c.spos - 1)
  let slot2 := match r.2 with
    | some item => json_parse_set_item slot c.key item
    | none => slot
  { c with x := c.x + r.1, stack := updf c.stack (c.spos - 1) slot2 }

/-- `stack[spos++] = json_create(...); kv[spos - 1] = flag;` — note that `x`
is not advanced. -/
def pushCfg (c : ParseCfg) (item : JValue) (flag : Bool) : ParseCfg :=
  { c with stack := updf c.stack c.spos (some item),
           kv := updb c.kv c.spos flag,
           spos := c.spos + 1,
           openCnt := c.openCnt + 1 }

/-- `kv[spos - 1] = false; spos--;` — note that `x` is not advanced.  The
instrumentation `openCnt` drops by one (it cannot drop below zero: with no
container open, nothing closes). -/
def popCfg (c : ParseCfg) : ParseCfg :=
  { c with kv := updb c.kv (c.spos - 1) false,
           spos := c.spos - 1,
           openCnt := c.openCnt - 1 }

/-- One iteration of `MTY_JSONParse`'s loop (the identity once `x ≥ len`). -/
def parseStep (c : ParseCfg) : ParseCfg :=
  if c.x < c.input.length then
    match tokOf (c.input.getD c.x ' ') with
    | .bool => stepScalar c json_parse_boolean
    | .num => stepScalar c json_parse_number
    | .strq =>
      if c.kv (c.spos - 1) then
        let r := json_parse_string_raw (c.input.drop c.x)
        { c with x := c.x + r.1, key := r.2 }
      else
        stepScalar c json_parse_string
    | .nul => stepScalar c json_parse_null
    | .objOpen => pushCfg c (.obj []) true
    | .objClose => popCfg c
    | .colon => { c with kv := updb c.kv (c.spos - 1) false }
    | .comma => { c with kv := updb c.kv (c.spos - 1) true }
    | .arrOpen => pushCfg c (.arr []) false
    | .arrClose => popCfg c
    | .skip => { c with x := c.x + 1 }
  else c

/-- The loop's state after `n` iterations. -/
def parseRun : Nat → ParseCfg → ParseCfg
  | 0, c => c
  | n + 1, c => parseStep (parseRun n c)

/-- `MTY_JSONParse`'s initial state: `stack` and `kv` zeroed, `key` NULL,
`spos = 1`. -/
def initCfg (s : List Char) : ParseCfg :=
  { input := s, x := 0, spos := 1, stack := fun _ => none,
    kv := fun _ => false, key := none, openCnt := 0 }

/-- The loop has exited: the scan position has reached the input's length. -/
def parseDoneAt (c : ParseCfg) : Prop := c.input.length ≤ c.x

/-- `MTY_JSONParse(s)` returns `r`: after finitely many iterations the loop
exits and `return stack[0]` yields `r` (NULL modelled as `none`). -/
def MTY_JSONParseReturns (s : List Char) (r : Option JValue) : Prop :=
  ∃ n, parseDoneAt (parseRun n (initCfg s)) ∧ (parseRun n (initCfg s)).stack 0 = r

/-- The indices into the 128-entry arrays `stack` and `kv` that the iteration
starting from `c` accesses: every iteration evaluates `stack[spos - 1]` (the
`parent` load) and every non-default case reads or writes index `spos - 1`;
the two push cases additionally write `stack[spos]` and `kv[spos]`. -/
def iterAccesses (c : ParseCfg) : List Int :=
  if c.x < c.input.length then
    match tokOf (c.input.getD c.x ' ') with
    | .objOpen => [c.spos - 1, c.spos]
    | .arrOpen => [c.spos - 1, c.spos]
    | _ => [c.spos - 1]
  else []

/-- Whether the iteration starting from `c` is a push (`{` or `[`). -/
def pushTok (c : ParseCfg) : Bool :=
  if c.x < c.input.length then
    match tokOf (c.input.getD c.x ' ') with
    | .objOpen => true
    | .arrOpen => true
    | _ => false
  else false

/-- All listed indices lie inside the arrays' bounds 0..127. -/
def accessesOK (l : List Int) : Bool :=
  l.all fun i => decide (0 ≤ i) && decide (i < 128)

/-- The scan of input `s` never has more than `bound` container values
simultaneously open. -/
def inputOpenBounded (s : List Char) (bound : Nat) : Prop :=
  ∀ n, (parseRun n (initCfg s)).openCnt ≤ bound

/-- The number of entries an object tree holds under a given key (its backing
map's entries whose key is `k`). -/
def objEntryCount (j : Option JValue) (k : String) : Nat :=
  match j with
  | some (.obj m) => (m.map Prod.fst).count k
  | _ => 0

-- Helper lemmas about single parser iterations and specific runs.

theorem parseStep_objOpen (c : ParseCfg) (hlt : c.x < c.input.length)
    (h : tokOf (c.input.getD c.x ' ') = Tok.objOpen) :
    parseStep c = pushCfg c (.obj []) true := by
  unfold parseStep
  rw [if_pos hlt, h]

theorem parseStep_objClose (c : ParseCfg) (hlt : c.x < c.input.length)
    (h : tokOf (c.input.getD c.x ' ') = Tok.objClose) :
    parseStep c = popCfg c := by
  unfold parseStep
  rw [if_pos hlt, h]

theorem parseStep_nul (c : ParseCfg) (hlt : c.x < c.input.length)
    (h : tokOf (c.input.getD c.x ' ') = Tok.nul) :
    parseStep c = stepScalar c json_parse_null := by
  unfold parseStep
  rw [if_pos hlt, h]

/-- On the input `{}` every iteration sees the `{` at position 0 (the `{`
case never advances `x`), pushes one more Object, and never writes
`stack[0]`. -/
theorem run_brace (n : Nat) :
    (parseRun n (initCfg ['{', '}'])).x = 0 ∧
    (parseRun n (initCfg ['{', '}'])).input = ['{', '}'] ∧
    (parseRun n (initCfg ['{', '}'])).spos = 1 + n ∧
    (parseRun n (initCfg ['{', '}'])).stack 0 = none := by
  induction n with
  | zero => refine ⟨rfl, rfl, by norm_num [parseRun, initCfg], rfl⟩
  | succ n ih =>
    obtain ⟨hx, hi, hs, hst⟩ := ih
    have hlt : (parseRun n (initCfg ['{', '}'])).x <
        (parseRun n (initCfg ['{', '}'])).input.length := by
      rw [hx, hi]; decide
    have hch : tokOf ((parseRun n (initCfg ['{', '}'])).input.getD
        (parseRun n (initCfg ['{', '}'])).x ' ') = Tok.objOpen := by
      rw [hx, hi]; rfl
    have hstep := parseStep_objOpen _ hlt hch
    have hspos : (0 : Int) ≠ (parseRun n (initCfg ['{', '}'])).spos := by
      rw [hs]; omega
    refine ⟨?_, ?_, ?_, ?_⟩
    · show (parseStep (parseRun n (initCfg ['{', '}']))).x = 0
      rw [hstep]; exact hx
    · show (parseStep (parseRun n (initCfg ['{', '}']))).input = _
      rw [hstep]; exact hi
    · show (parseStep (parseRun n (initCfg ['{', '}']))).spos = _
      rw [hstep]
      show (parseRun n (initCfg ['{', '}'])).spos + 1 = 1 + (n + 1 : Nat)
      rw [hs]; push_cast; ring
    · show (parseStep (parseRun n (initCfg ['{', '}']))).stack 0 = none
      rw [hstep]
      show updf _ _ _ 0 = none
      rw [updf, if_neg hspos]
      exact hst

/-- On the input `n` the stubbed `json_parse_null` consumes 0 characters, so
the scan position never leaves 0. -/
theorem run_nul (n : Nat) :
    (parseRun n (initCfg ['n'])).x = 0 ∧ (parseRun n (initCfg ['n'])).input = ['n'] := by
  induction n with
  | zero => exact ⟨rfl, rfl⟩
  | succ n ih =>
    obtain ⟨hx, hi⟩ := ih
    have hlt : (parseRun n (initCfg ['n'])).x < (parseRun n (initCfg ['n'])).input.length := by
      rw [hx, hi]; decide
    have hch : tokOf ((parseRun n (initCfg ['n'])).input.getD
        (parseRun n (initCfg ['n'])).x ' ') = Tok.nul := by
      rw [hx, hi]; rfl
    have hstep := parseStep_nul _ hlt hch
    constructor
    · show (parseStep (parseRun n (initCfg ['n']))).x = 0
      rw [hstep]
      show (parseRun n (initCfg ['n'])).x + (json_parse_null _).1 = 0
      simpa [json_parse_null] using hx
    · show (parseStep (parseRun n (initCfg ['n']))).input = _
      rw [hstep]; exact hi

/-- On the input `}` the `}` case never advances `x` either: every iteration
decrements `spos` again, and no container is ever opened. -/
theorem run_close (n : Nat) :
    (parseRun n (initCfg ['}'])).x = 0 ∧ (parseRun n (initCfg ['}'])).input = ['}'] ∧
    (parseRun n (initCfg ['}'])).openCnt = 0 := by
  induction n with
  | zero => exact ⟨rfl, rfl, rfl⟩
  | succ n ih =>
    obtain ⟨hx, hi, ho⟩ := ih
    have hlt : (parseRun n (initCfg ['}'])).x < (parseRun n (initCfg ['}'])).input.length := by
      rw [hx, hi]; decide
    have hch : tokOf ((parseRun n (initCfg ['}'])).input.getD
        (parseRun n (initCfg ['}'])).x ' ') = Tok.objClose := by
      rw [hx, hi]; rfl
    have hstep := parseStep_objClose _ hlt hch
    refine ⟨?_, ?_, ?_⟩
    · show (parseStep (parseRun n (initCfg ['}']))).x = 0
      rw [hstep]; exact hx
    · show (parseStep (parseRun n (initCfg ['}']))).input = _
      rw [hstep]; exact hi
    · show (parseStep (parseRun n (initCfg ['}']))).openCnt = 0
      rw [hstep]
      show (parseRun n (initCfg ['}'])).openCnt - 1 = 0
      rw [ho]

-- Helper lemmas about the typed-getter helpers' failure paths.

theorem json_to_string_fail (t : Option JValue) (p : String) (sz : Nat)
    (h : ∀ s, t ≠ some (.str s)) : json_to_string t p sz = (false, p) := by
  cases t with
  | none => rfl
  | some v => cases v <;> first | rfl | exact absurd rfl (h _)

theorem json_to_int_fail (t : Option JValue) (p : Int)
    (h : ∀ q, t ≠ some (.number q)) : json_to_int t p = (false, p) := by
  cases t with
  | none => rfl
  | some v => cases v <;> first | rfl | exact absurd rfl (h _)

theorem json_to_float_fail (t : Option JValue) (p : Rat)
    (h : ∀ q, t ≠ some (.number q)) : json_to_float t p = (false, p) := by
  cases t with
  | none => rfl
  | some v => cases v <;> first | rfl | exact absurd rfl (h _)

theorem json_to_bool_fail (t : Option JValue) (p : Bool)
    (h : ∀ b, t ≠ some (.boolean b)) : json_to_bool t p = (false, p) := by
  cases t with
  | none => rfl
  | some v => cases v <;> first | rfl | exact absurd rfl (h _)

theorem json_to_int16_fail (t : Option JValue) (p : Int)
    (h : ∀ q, t ≠ some (.number q)) : json_to_int16 t p = (false, 0) := by
  have h1 : json_to_int t 0 = (false, 0) := json_to_int_fail t 0 h
  simp [json_to_int16, h1, toInt16]

theorem json_to_int8_fail (t : Option JValue) (p : Int)
    (h : ∀ q, t ≠ some (.number q)) : json_to_int8 t p = (false, 0) := by
  have h1 : json_to_int t 0 = (false, 0) := json_to_int_fail t 0 h
  simp [json_to_int8, h1, toInt8]

-- Helper lemmas about the (spec-modelled) backing map.

theorem hashSet_prev (m : List (String × JValue)) (k : String) (v : JValue) :
    (hashSet m k v).1 = hashGet m k := by
  induction m with
  | nil => rfl
  | cons p rest ih =>
    obtain ⟨k', w⟩ := p
    by_cases h : k' = k <;> simp [hashSet, hashGet, h, ih]

theorem hashSet_get (m : List (String × JValue)) (k : String) (v : JValue) :
    hashGet (hashSet m k v).2 k = some v := by
  induction m with
  | nil => simp [hashSet, hashGet]
  | cons p rest ih =>
    obtain ⟨k', w⟩ := p
    by_cases h : k' = k
    · subst h; simp [hashSet, hashGet]
    · simp [hashSet, hashGet, h, ih]

theorem hashSet_keys (m : List (String × JValue)) (k : String) (v : JValue) :
    (hashSet m k v).2.map Prod.fst =
      if k ∈ m.map Prod.fst then m.map Prod.fst else m.map Prod.fst ++ [k] := by
  induction m with
  | nil => simp [hashSet]
  | cons p rest ih =>
    obtain ⟨k', w⟩ := p
    by_cases h : k' = k
    · subst h; simp [hashSet]
    · by_cases hm : k ∈ rest.map Prod.fst <;>
        simp [hashSet, h, ih, hm, Ne.symm h]

theorem hashSet_nodup (m : List (String × JValue)) (k : String) (v : JValue)
    (hnd : (m.map Prod.fst).Nodup) : ((hashSet m k v).2.map Prod.fst).Nodup := by
  rw [hashSet_keys]
  by_cases hm : k ∈ m.map Prod.fst
  · rwa [if_pos hm]
  · rw [if_neg hm]
    simp [List.nodup_append, hnd, hm]

theorem hashSet_count (m : List (String × JValue)) (k : String) (v : JValue)
    (hnd : (m.map Prod.fst).Nodup) :
    ((hashSet m k v).2.map Prod.fst).count k = 1 := by
  rw [hashSet_keys]
  by_cases hm : k ∈ m.map Prod.fst
  · rw [if_pos hm]
    exact List.count_eq_one_of_mem hnd hm
  · rw [if_neg hm]
    rw [List.count_append, List.count_eq_zero_of_not_mem hm]
    simp

/-- Appending a list of values one at a time onto an Array tree. -/
theorem appendAll_arr (vs : List JValue) : ∀ es : List JValue,
    appendAll (some (.arr es)) vs = some (.arr (es ++ vs)) := by
  induction vs with
  | nil => intro es; simp [appendAll]
  | cons v vs ih =>
    intro es
    show appendAll (MTY_JSONArrayAppendItem (some (.arr es)) (some v)) vs = _
    show appendAll (some (.arr (es ++ [v]))) vs = _
    rw [ih (es ++ [v])]
    simp

-- The claims.

/-- C1: the claim says that for an input whose first container token is `{`
or `[`, parse returns that first pushed container as the root.  The code
cannot: the `{` case stores the new Object at `stack[spos]` with `spos`
starting at 1 and never calls `json_parse_set_item`, while the function
returns `stack[0]` — and it never advances `x`, so on the input `{}` the loop
re-reads the `{` forever.  This theorem evaluates the code at that failing
input: the scan position stays 0 at every iteration, `stack[0]` (the returned
root) stays NULL, and consequently `MTY_JSONParse` never returns at all, let
alone the pushed container. -/
theorem MTY_JSONParse_object_input_never_produces_root :
    (∀ n, (parseRun n (initCfg ['{', '}'])).x = 0 ∧
          (parseRun n (initCfg ['{', '}'])).stack 0 = none) ∧
    ∀ r, ¬ MTY_JSONParseReturns ['{', '}'] r := by
  constructor
  · exact fun n => ⟨(run_brace n).1, (run_brace n).2.2.2⟩
  · rintro r ⟨n, hdone, -⟩
    have hx := (run_brace n).1
    have hi := (run_brace n).2.1
    rw [parseDoneAt, hx, hi] at hdone
    simp at hdone

/-- C2: the claim says `parse(serialize(tree))` deep-equals `tree` for trees
of Booleans, Strings, Arrays and Objects.  Evaluated at the failing input —
the empty Object tree — the serializer produces the text `{}`, and on that
text the parse loop never terminates (the `{` case does not advance the scan
position), so no tree at all is produced. -/
theorem roundtrip_empty_object_parse_diverges :
    MTY_JSONSerialize (some (.obj [])) = "\x7b\x7d" ∧
    ∀ r, ¬ MTY_JSONParseReturns (MTY_JSONSerialize (some (.obj []))).data r := by
  refine ⟨rfl, ?_⟩
  show ∀ r, ¬ MTY_JSONParseReturns ['{', '}'] r
  rintro r ⟨n, hdone, -⟩
  have hx := (run_brace n).1
  have hi := (run_brace n).2.1
  rw [parseDoneAt, hx, hi] at hdone
  simp at hdone

/-- C3: the claim says parse terminates on every finite input because the
no-match case of a token handler still advances the scan.  It does not: at
the failing input `n`, the stubbed `json_parse_null` consumes zero
characters, the scan position stays 0 at every iteration, and the loop never
exits. -/
theorem MTY_JSONParse_null_literal_input_loops_forever :
    (∀ n, (parseRun n (initCfg ['n'])).x = 0) ∧
    ∀ r, ¬ MTY_JSONParseReturns ['n'] r := by
  refine ⟨fun n => (run_nul n).1, ?_⟩
  rintro r ⟨n, hdone, -⟩
  rw [parseDoneAt, (run_nul n).1, (run_nul n).2] at hdone
  simp at hdone

/-- C4: the claim says duplicate preserves variant and payload for
Boolean/Number/Null.  The code's `JSON_NUMBER` and `JSON_NULL` cases execute
`json_create(JSON_BOOLEAN, &json->value)`: whatever bool the union's first
byte reinterprets to (the model's `numBits`/`nullBits` parameters), the copy
of a Number or a Null is a Boolean-variant value, not a Number or a Null. -/
theorem MTY_JSONDuplicate_number_and_null_become_boolean :
    ∀ (numBits : Rat → Bool) (nullBits : Bool),
      MTY_JSONDuplicate numBits nullBits (.number 1) = .boolean (numBits 1) ∧
      MTY_JSONDuplicate numBits nullBits .null = .boolean nullBits :=
  fun _ _ => ⟨rfl, rfl⟩

/-- C5 counterexample: `MTY_JSONObjGetInt16` on a missing key returns false
but writes 0 over the caller's cell (which held 7), contradicting "the output
parameter keeps its prior value". -/
theorem MTY_JSONObjGetInt16_missing_key_overwrites_output :
    MTY_JSONObjGetInt16 (some (.obj [])) "k" 7 = (false, 0) ∧ (0 : Int) ≠ 7 :=
  ⟨rfl, by decide⟩

/-- C5 as amended: every typed getter returns false when the target value is
missing or of the wrong variant, and the string, int32, uint32, float and
bool getters leave the caller's output cell untouched — but the int8, uint8,
int16 and uint16 getters unconditionally store the truncation of a
zero-initialized temporary, overwriting the cell with 0 on failure. -/
theorem typed_getters_failure_leaves_output_except_narrow_widths
    (j : Option JValue) (k : String) (idx : Nat)
    (sPrev : String) (sz : Nat) (iPrev : Int) (qPrev : Rat) (bPrev : Bool) :
    ((∀ s, MTY_JSONObjGetItem j k ≠ some (.str s)) →
        MTY_JSONObjGetString j k sPrev sz = (false, sPrev)) ∧
    ((∀ q, MTY_JSONObjGetItem j k ≠ some (.number q)) →
        MTY_JSONObjGetInt j k iPrev = (false, iPrev) ∧
        MTY_JSONObjGetUInt j k iPrev = (false, iPrev) ∧
        MTY_JSONObjGetFloat j k qPrev = (false, qPrev) ∧
        MTY_JSONObjGetInt8 j k iPrev = (false, 0) ∧
        MTY_JSONObjGetUInt8 j k iPrev = (false, 0) ∧
        MTY_JSONObjGetInt16 j k iPrev = (false, 0) ∧
        MTY_JSONObjGetUInt16 j k iPrev = (false, 0)) ∧
    ((∀ b, MTY_JSONObjGetItem j k ≠ some (.boolean b)) →
        MTY_JSONObjGetBool j k bPrev = (false, bPrev)) ∧
    ((∀ s, MTY_JSONArrayGetItem j idx ≠ some (.str s)) →
        MTY_JSONArrayGetString j idx sPrev sz = (false, sPrev)) ∧
    ((∀ q, MTY_JSONArrayGetItem j idx ≠ some (.number q)) →
        MTY_JSONArrayGetInt j idx iPrev = (false, iPrev) ∧
        MTY_JSONArrayGetUInt j idx iPrev = (false, iPrev) ∧
        MTY_JSONArrayGetFloat j idx qPrev = (false, qPrev)) ∧
    ((∀ b, MTY_JSONArrayGetItem j idx ≠ some (.boolean b)) →
        MTY_JSONArrayGetBool j idx bPrev = (false, bPrev)) := by
  refine ⟨fun h => ?_, fun h => ?_, fun h => ?_, fun h => ?_, fun h => ?_, fun h => ?_⟩
  · exact json_to_string_fail _ _ _ h
  · exact ⟨json_to_int_fail _ _ h, json_to_int_fail _ _ h, json_to_float_fail _ _ h,
      json_to_int8_fail _ _ h, json_to_int8_fail _ _ h, json_to_int16_fail _ _ h,
      json_to_int16_fail _ _ h⟩
  · exact json_to_bool_fail _ _ h
  · exact json_to_string_fail _ _ _ h
  · exact ⟨json_to_int_fail _ _ h, json_to_int_fail _ _ h, json_to_float_fail _ _ h⟩
  · exact json_to_bool_fail _ _ h

/-- C5 witness: the amended statement at a concrete input — an empty Object
and the key "k": the wide getters leave the cells ("p", 7) alone, the narrow
getters zero theirs. -/
theorem typed_getters_failure_witness :
    MTY_JSONObjGetString (some (.obj [])) "k" "p" 4 = (false, "p") ∧
    MTY_JSONObjGetInt (some (.obj [])) "k" 7 = (false, 7) ∧
    MTY_JSONObjGetInt16 (some (.obj [])) "k" 7 = (false, 0) ∧
    MTY_JSONObjGetInt8 (some (.obj [])) "k" 7 = (false, 0) ∧
    MTY_JSONArrayGetBool (some (.obj [])) 0 true = (false, true) := by
  have T := typed_getters_failure_leaves_output_except_narrow_widths
    (some (.obj [])) "k" 0 "p" 4 7 1 true
  refine ⟨T.1 ?_, (T.2.1 ?_).1, (T.2.1 ?_).2.2.2.2.2.1, (T.2.1 ?_).2.2.2.1,
    T.2.2.2.2.2 ?_⟩
  all_goals intro z hz; exact Option.noConfusion hz

/-- C6: setting a key that already exists replaces the entry in place and
destroys the previous value: after setting `k` to `v1` and then to `v2` in an
object with no duplicate keys, exactly one entry remains under `k`, it holds
`v2`, and the second set destroyed exactly `v1` (the backing map returned it
from `set` and `MTY_JSONObjSetItem` passed it to `json_delete`). -/
theorem MTY_JSONObjSetItem_replaces_and_destroys_previous
    (m : List (String × JValue)) (k : String) (v1 v2 : JValue)
    (hnd : (m.map Prod.fst).Nodup) :
    objEntryCount
      (MTY_JSONObjSetItem (MTY_JSONObjSetItem (some (.obj m)) k (some v1)).1 k (some v2)).1 k = 1 ∧
    MTY_JSONObjGetItem
      (MTY_JSONObjSetItem (MTY_JSONObjSetItem (some (.obj m)) k (some v1)).1 k (some v2)).1 k
      = some v2 ∧
    (MTY_JSONObjSetItem (MTY_JSONObjSetItem (some (.obj m)) k (some v1)).1 k (some v2)).2
      = [v1] := by
  have e1 : (MTY_JSONObjSetItem (some (.obj m)) k (some v1)).1
      = some (.obj (hashSet m k v1).2) := rfl
  rw [e1]
  refine ⟨?_, ?_, ?_⟩
  · show ((hashSet (hashSet m k v1).2 k v2).2.map Prod.fst).count k = 1
    exact hashSet_count _ _ _ (hashSet_nodup m k v1 hnd)
  · show hashGet (hashSet (hashSet m k v1).2 k v2).2 k = some v2
    exact hashSet_get _ _ _
  · show (hashSet (hashSet m k v1).2 k v2).1.toList = [v1]
    rw [hashSet_prev, hashSet_get]
    rfl

/-- C6 witness: the object initially holding only key "y", with "x" set to
the Number 1 and then to the Number 2: one entry under "x", holding 2, with
the Number 1 destroyed by the second set. -/
theorem MTY_JSONObjSetItem_replaces_witness :
    (([("y", JValue.boolean true)].map Prod.fst).Nodup) ∧
    objEntryCount
      (MTY_JSONObjSetItem
        (MTY_JSONObjSetItem (some (.obj [("y", .boolean true)])) "x" (some (.number 1))).1
        "x" (some (.number 2))).1 "x" = 1 ∧
    MTY_JSONObjGetItem
      (MTY_JSONObjSetItem
        (MTY_JSONObjSetItem (some (.obj [("y", .boolean true)])) "x" (some (.number 1))).1
        "x" (some (.number 2))).1 "x" = some (.number 2) ∧
    (MTY_JSONObjSetItem
        (MTY_JSONObjSetItem (some (.obj [("y", .boolean true)])) "x" (some (.number 1))).1
        "x" (some (.number 2))).2 = [.number 1] := by
  have hnd : (([("y", JValue.boolean true)].map Prod.fst).Nodup) := by simp
  have T := MTY_JSONObjSetItem_replaces_and_destroys_previous
    [("y", JValue.boolean true)] "x" (.number 1) (.number 2) hnd
  exact ⟨hnd, T.1, T.2.1, T.2.2⟩

/-- C7 counterexample: the input `}` opens no container at all (the
instrumented count of simultaneously open containers stays 0, certainly at
most 128), yet the parser's second iteration, after `spos--` has taken the
stack pointer to 0, evaluates `stack[spos - 1]` — index -1 (as `size_t`,
2^64 - 1), outside the 128-entry arrays. -/
theorem parser_unmatched_close_out_of_bounds :
    inputOpenBounded ['}'] 128 ∧
    accessesOK (iterAccesses (parseRun 1 (initCfg ['}']))) = false := by
  refine ⟨fun n => ?_, rfl⟩
  rw [(run_close n).2.2]
  exact Nat.zero_le _

/-- C7 as amended: an iteration's accesses to the 128-entry `stack` and `kv`
arrays are within bounds 0..127 provided the stack pointer is then between 1
and 128, and at most 127 if the iteration pushes a new container — i.e. at
most 127 containers are simultaneously open afterwards and no close has
underflowed the pointer.  An unmatched closing bracket (pointer 0, access at
index -1) or a 128th simultaneously open container (push writing index 128)
leaves the arrays' bounds. -/
theorem parser_stack_accesses_in_bounds_of_spos (s : List Char) (n : Nat)
    (h1 : 1 ≤ (parseRun n (initCfg s)).spos)
    (h2 : (parseRun n (initCfg s)).spos ≤ 128)
    (h3 : pushTok (parseRun n (initCfg s)) = true → (parseRun n (initCfg s)).spos ≤ 127) :
    accessesOK (iterAccesses (parseRun n (initCfg s))) = true := by
  set c := parseRun n (initCfg s) with hc
  unfold pushTok at h3
  unfold iterAccesses
  by_cases hx : c.x < c.input.length
  · rw [if_pos hx] at h3 ⊢
    cases htok : tokOf (c.input.getD c.x ' ') <;>
      simp only [htok] at h3 ⊢ <;>
      try simp only [eq_self_iff_true, true_implies] at h3
    all_goals
      simp only [accessesOK, List.all_cons, List.all_nil, Bool.and_eq_true,
        decide_eq_true_eq, Bool.and_true]
      omega
  · rw [if_neg hx]
    rfl

/-- C7 witness: the first iteration on the input `[`, with the stack pointer
at its initial value 1, accesses only indices 0 and 1. -/
theorem parser_stack_accesses_in_bounds_witness :
    1 ≤ (parseRun 0 (initCfg ['['])).spos ∧
    accessesOK (iterAccesses (parseRun 0 (initCfg ['[']))) = true :=
  ⟨by decide, parser_stack_accesses_in_bounds_of_spos ['['] 0 (by decide) (by decide)
    (fun _ => by decide)⟩

/-- C8: appending never removes or reorders: one append turns the element
list `es` into `es ++ [v]`, and after appending the values `vs` in order onto
a fresh Array the length is `vs.length` and index `i` holds exactly the i-th
appended value. -/
theorem MTY_JSONArrayAppendItem_preserves_order_and_length
    (es : List JValue) (v : JValue) (vs : List JValue) (i : Nat)
    (hi : i < vs.length) :
    MTY_JSONArrayAppendItem (some (.arr es)) (some v) = some (.arr (es ++ [v])) ∧
    appendAll (some (.arr [])) vs = some (.arr vs) ∧
    MTY_JSONArrayGetLength (appendAll (some (.arr [])) vs) = vs.length ∧
    MTY_JSONArrayGetItem (appendAll (some (.arr [])) vs) i = vs[i]? := by
  have ha : appendAll (some (.arr [])) vs = some (.arr vs) := by
    rw [appendAll_arr]; simp
  refine ⟨rfl, ha, ?_, ?_⟩
  · rw [ha]; rfl
  · rw [ha]
    show (if i < vs.length then vs[i]? else none) = vs[i]?
    rw [if_pos hi]

/-- C8 witness: three values appended to a fresh Array — length 3 and the
middle element retrieved in insertion order. -/
theorem MTY_JSONArrayAppendItem_three_values_witness :
    1 < ([JValue.boolean true, JValue.null, JValue.str "a"] : List JValue).length ∧
    appendAll (some (.arr [])) [JValue.boolean true, JValue.null, JValue.str "a"]
      = some (.arr [JValue.boolean true, JValue.null, JValue.str "a"]) ∧
    MTY_JSONArrayGetLength
      (appendAll (some (.arr [])) [JValue.boolean true, JValue.null, JValue.str "a"]) = 3 ∧
    MTY_JSONArrayGetItem
      (appendAll (some (.arr [])) [JValue.boolean true, JValue.null, JValue.str "a"]) 1
      = some JValue.null := by
  have T := MTY_JSONArrayAppendItem_preserves_order_and_length [] (JValue.boolean true)
    [JValue.boolean true, JValue.null, JValue.str "a"] 1 (by norm_num)
  exact ⟨by norm_num, T.2.1, T.2.2.1, T.2.2.2⟩

/-- C9: a NULL target tree or a NULL value to insert makes object set and
array append perform no mutation: the target comes back unchanged, nothing is
installed and nothing is destroyed. -/
theorem set_append_null_arguments_are_noops (j : Option JValue) (k : String)
    (v : Option JValue) :
    MTY_JSONObjSetItem none k v = (none, []) ∧
    MTY_JSONObjSetItem j k none = (j, []) ∧
    MTY_JSONArrayAppendItem none v = none ∧
    MTY_JSONArrayAppendItem j none = j := by
  refine ⟨?_, ?_, ?_, ?_⟩
  · cases v <;> rfl
  · cases j with
    | none => rfl
    | some t => cases t <;> rfl
  · cases v <;> rfl
  · cases j with
    | none => rfl
    | some t => cases t <;> rfl

/-- C10: object set-by-key, array append and object delete-by-key on a
non-NULL target of the wrong variant are silent no-ops for every wrong
variant: the target is returned unchanged, nothing is installed and nothing
is destroyed. -/
theorem wrong_variant_mutations_are_noops (b : Bool) (q : Rat) (s : String)
    (es : List JValue) (m : List (String × JValue)) (k : String) (v : JValue) :
    (MTY_JSONObjSetItem (some (.boolean b)) k (some v) = (some (.boolean b), []) ∧
     MTY_JSONObjSetItem (some (.number q)) k (some v) = (some (.number q), []) ∧
     MTY_JSONObjSetItem (some (.str s)) k (some v) = (some (.str s), []) ∧
     MTY_JSONObjSetItem (some (.arr es)) k (some v) = (some (.arr es), []) ∧
     MTY_JSONObjSetItem (some .null) k (some v) = (some .null, [])) ∧
    (MTY_JSONArrayAppendItem (some (.boolean b)) (some v) = some (.boolean b) ∧
     MTY_JSONArrayAppendItem (some (.number q)) (some v) = some (.number q) ∧
     MTY_JSONArrayAppendItem (some (.str s)) (some v) = some (.str s) ∧
     MTY_JSONArrayAppendItem (some (.obj m)) (some v) = some (.obj m) ∧
     MTY_JSONArrayAppendItem (some .null) (some v) = some .null) ∧
    (MTY_JSONObjDeleteItem (some (.boolean b)) k = (some (.boolean b), []) ∧
     MTY_JSONObjDeleteItem (some (.number q)) k = (some (.number q), []) ∧
     MTY_JSONObjDeleteItem (some (.str s)) k = (some (.str s), []) ∧
     MTY_JSONObjDeleteItem (some (.arr es)) k = (some (.arr es), []) ∧
     MTY_JSONObjDeleteItem (some .null) k = (some .null, [])) :=
  ⟨⟨rfl, rfl, rfl, rfl, rfl⟩, ⟨rfl, rfl, rfl, rfl, rfl⟩, ⟨rfl, rfl, rfl, rfl, rfl⟩⟩
